import Mathlib

/-!
Shallow embedding of scripts/convert-countries-data.py: a small conversion
script that parses raw username,country lines into two mappings and writes
them out as sorted CSV files.

Python strings are modelled as lists of characters; Python dictionaries are
modelled as association lists in insertion order, where updating an existing
key rewrites the value in place and a new key is appended at the end, exactly
as CPython dictionaries behave.
-/

/-- Characters stripped by the Python method str.strip with no argument:
space, tab, newline, carriage return, vertical tab and form feed. -/
def pySpace (c : Char) : Bool :=
  c == ' ' || c == '\t' || c == '\n' || c == '\r' || c == '\x0b' || c == '\x0c'

/-- Model of the Python method str.strip: remove leading and trailing
whitespace characters. -/
def pyStrip (s : List Char) : List Char :=
  ((s.dropWhile pySpace).reverse.dropWhile pySpace).reverse

/-- Model of the Python method str.split with a one-character separator:
split on every occurrence of the separator; the empty string yields a
single empty field. -/
def pySplit (sep : Char) : List Char → List (List Char)
  | [] => [[]]
  | c :: cs =>
    if c = sep then [] :: pySplit sep cs
    else
      match pySplit sep cs with
      | [] => [[c]]
      | p :: ps => (c :: p) :: ps

/-- Model of a Python dictionary assignment d[k] = v on an association list
kept in insertion order: an existing key keeps its position and receives the
new value, a new key is appended at the end. -/
def dinsert {β : Type} (k : List Char) (v : β) :
    List (List Char × β) → List (List Char × β)
  | [] => [(k, v)]
  | (k', v') :: d => if k' = k then (k, v) :: d else (k', v') :: dinsert k v d

/-- Model of a Python dictionary lookup, returned as an Option. -/
def dictGet {β : Type} (k : List Char) : List (List Char × β) → Option β
  | [] => none
  | (k', v) :: d => if k' = k then some v else dictGet k d

/-- The known_mappings table hard-coded inside parse_country_data. -/
def known_mappings : List (List Char × Nat) :=
  [("Greece".data, 82), ("United Kingdom".data, 218),
   ("United Arab Emirates".data, 217), ("Denmark".data, 57),
   ("Australia".data, 12)]

/-- Test of membership of a country in known_mappings together with its
identifier: models the Python test country in known_mappings followed by
the lookup known_mappings[country]. -/
def known_lookup (c : List Char) : Option Nat :=
  (known_mappings.find? fun p => decide (p.1 = c)).map Prod.snd

/-- One iteration of the parsing loop, up to the dictionary updates: strip
the line, skip it when it is empty or starts with a comment mark, split it
on commas, keep it only when the split yields exactly two fields, and return
the two stripped fields. -/
def lineRecord (rawLine : List Char) : Option (List Char × List Char) :=
  if pyStrip rawLine = [] then none
  else if (pyStrip rawLine).head? = some '#' then none
  else
    match pySplit ',' (pyStrip rawLine) with
    | [u, c] => some (pyStrip u, pyStrip c)
    | _ => none

/-- Test of the skip condition of the parsing loop: the stripped line is
empty or its first character is the comment mark. -/
def skippable (l : List Char) : Bool :=
  decide (pyStrip l = [] ∨ (pyStrip l).head? = some '#')

/-- One iteration of the parsing loop of parse_country_data acting on the
pair of dictionaries (username_to_country, country_to_id). -/
def processLine
    (st : List (List Char × List Char) × List (List Char × Nat))
    (rawLine : List Char) :
    List (List Char × List Char) × List (List Char × Nat) :=
  match lineRecord rawLine with
  | none => st
  | some (username, country) =>
      (dinsert username country st.1,
       match known_lookup country with
       | some i => dinsert country i st.2
       | none => st.2)

/-- Model of parse_country_data: strip the whole text, split it into lines,
and fold the line processing over the lines starting from two empty
dictionaries; returns (username_to_country, country_to_id). -/
def parse_country_data (data : List Char) :
    List (List Char × List Char) × List (List Char × Nat) :=
  (pySplit '\n' (pyStrip data)).foldl processLine ([], [])

/-- The sequence of (username, country) pairs of the valid record lines of
the input text, in input order, before any dictionary deduplication. -/
def records (data : List Char) : List (List Char × List Char) :=
  (pySplit '\n' (pyStrip data)).filterMap lineRecord

/-- Comparison used by sorted(username_to_country.items()): Python compares
the (username, country) tuples lexicographically, strings by code point. -/
def pairLe (p q : List Char × List Char) : Prop :=
  p.1 < q.1 ∨ (p.1 = q.1 ∧ p.2 ≤ q.2)

instance : DecidableRel pairLe := fun p q => by
  unfold pairLe
  infer_instance

/-- Comparison used by sorted(country_to_id.items(), key=lambda x: x[1]):
rows are ordered by the numeric country identifier. -/
def idLe (p q : List Char × Nat) : Prop :=
  p.2 ≤ q.2

instance : DecidableRel idLe := fun p q => by
  unfold idLe
  infer_instance

instance : IsTrans (List Char × List Char) pairLe :=
  ⟨by
    intro p q r hpq hqr
    rcases hpq with h1 | ⟨h1, h1b⟩ <;> rcases hqr with h2 | ⟨h2, h2b⟩
    · exact Or.inl (lt_trans h1 h2)
    · exact Or.inl (h2 ▸ h1)
    · exact Or.inl (h1 ▸ h2)
    · exact Or.inr ⟨h1.trans h2, le_trans h1b h2b⟩⟩

instance : IsTotal (List Char × List Char) pairLe :=
  ⟨by
    intro p q
    rcases lt_trichotomy p.1 q.1 with h | h | h
    · exact Or.inl (Or.inl h)
    · rcases le_total p.2 q.2 with h2 | h2
      · exact Or.inl (Or.inr ⟨h, h2⟩)
      · exact Or.inr (Or.inr ⟨h.symm, h2⟩)
    · exact Or.inr (Or.inl h)⟩

instance : IsTrans (List Char × Nat) idLe :=
  ⟨fun _ _ _ => Nat.le_trans⟩

instance : IsTotal (List Char × Nat) idLe :=
  ⟨fun p q => Nat.le_total p.2 q.2⟩

/-- The username rows in the order they are written to
username_countries.csv. -/
def userRows (u2c : List (List Char × List Char)) :
    List (List Char × List Char) :=
  List.insertionSort pairLe u2c

/-- The country rows in the order they are written to country_ids.csv. -/
def countryRows (c2id : List (List Char × Nat)) : List (List Char × Nat) :=
  List.insertionSort idLe c2id

/-- Decimal rendering of a natural number, as the Python f-string does. -/
def natStr (n : Nat) : List Char :=
  (Nat.repr n).data

/-- One data row of username_countries.csv. -/
def renderUserRow (p : List Char × List Char) : List Char :=
  p.1 ++ ',' :: p.2 ++ ['\n']

/-- One data row of country_ids.csv. -/
def renderCountryRow (p : List Char × Nat) : List Char :=
  natStr p.2 ++ ',' :: p.1 ++ ['\n']

/-- Content written to username_countries.csv by save_results: a header
line followed by the username rows sorted as Python sorted does. -/
def username_countries_csv (u2c : List (List Char × List Char)) :
    List Char :=
  "Username,Country\n".data ++ ((userRows u2c).map renderUserRow).flatten

/-- Content written to country_ids.csv by save_results: a header line
followed by the country rows sorted by numeric identifier. -/
def country_ids_csv (c2id : List (List Char × Nat)) : List Char :=
  "CountryID,CountryName\n".data ++ ((countryRows c2id).map renderCountryRow).flatten

/-- The message printed when no valid record was parsed. -/
def no_data_message : List Char :=
  "\nNo data found! Please add your data to the raw_data variable in this script.".data

/-- Observable outcome of one run of the script: the files written with
their contents, the console messages in order, and the process exit code. -/
structure RunResult where
  files : List (List Char × List Char)
  msgs : List (List Char)
  exitCode : Nat

/-- Model of the top-level block of the script on a given input text: parse
the text, print the summary, and either write the two CSV files and print
the save messages, or print the no-data message. The script never raises
and never calls exit, so the exit code is always 0. -/
def mainRun (data : List Char) : RunResult :=
  let st := parse_country_data data
  let u2c := st.1
  let c2id := st.2
  let summary : List (List Char) :=
    [("Found ".data ++ natStr u2c.length ++ " users".data),
     ("Found ".data ++ natStr (u2c.map Prod.snd).dedup.length ++
        " unique countries".data)]
  let sample : List (List Char) :=
    if u2c = [] then []
    else
      "\nSample data:".data ::
        (u2c.take 5).map (fun p => "  ".data ++ p.1 ++ " -> ".data ++ p.2)
  if u2c = [] then
    { files := [],
      msgs := summary ++ sample ++ [no_data_message],
      exitCode := 0 }
  else
    { files := [("username_countries.csv".data, username_countries_csv u2c),
                ("country_ids.csv".data, country_ids_csv c2id)],
      msgs := summary ++ sample ++
        [("Saved ".data ++ natStr u2c.length ++
            " username mappings to username_countries.csv".data),
         ("Saved ".data ++ natStr c2id.length ++
            " country ID mappings to country_ids.csv".data)],
      exitCode := 0 }

/-- Effect of one run on a file store (file name to content, opened with
mode w, which truncates and rewrites): every written file overwrites any
previous content under the same name. -/
def runStore (store : List (List Char × List Char)) (data : List Char) :
    List (List Char × List Char) :=
  (mainRun data).files.foldl (fun s f => dinsert f.1 f.2 s) store

/-- C9: parse_country_data is total: every input text, including the empty
text and texts with no newline, yields a pair of dictionaries. -/
theorem c9_parse_total (data : List Char) :
    ∃ u2c c2id, parse_country_data data = (u2c, c2id) :=
  ⟨(parse_country_data data).1, (parse_country_data data).2, rfl⟩

/-- C10: field content is not validated: a line with exactly one comma and
an empty username field, or an empty country field, still produces an entry
with an empty-string key or value. -/
theorem c10_no_field_validation :
    parse_country_data ",Denmark".data =
      ([([], "Denmark".data)], [("Denmark".data, 57)]) ∧
    parse_country_data "user,".data = ([("user".data, [])], []) :=
  ⟨rfl, rfl⟩

/-- C8: on the five-line example input the parser returns exactly the two
documented dictionaries, and the writer produces the two sorted CSV
contents with two data rows each. -/
theorem c8_example_run :
    parse_country_data
        "JeppeKirkBonde,United Arab Emirates\nCPHequities,Denmark\n# comment\n\nbadline\n".data =
      ([("JeppeKirkBonde".data, "United Arab Emirates".data),
        ("CPHequities".data, "Denmark".data)],
       [("United Arab Emirates".data, 217), ("Denmark".data, 57)]) ∧
    username_countries_csv
        [("JeppeKirkBonde".data, "United Arab Emirates".data),
         ("CPHequities".data, "Denmark".data)] =
      "Username,Country\nCPHequities,Denmark\nJeppeKirkBonde,United Arab Emirates\n".data ∧
    country_ids_csv [("United Arab Emirates".data, 217), ("Denmark".data, 57)] =
      "CountryID,CountryName\n57,Denmark\n217,United Arab Emirates\n".data :=
  ⟨rfl, rfl, rfl⟩

/-! Helper lemmas shared by the claim theorems. -/

theorem dinsert_nil {β : Type} (k : List Char) (v : β) :
    dinsert k v [] = [(k, v)] := rfl

theorem dinsert_cons {β : Type} (k : List Char) (v : β) (k1 : List Char)
    (v1 : β) (d : List (List Char × β)) :
    dinsert k v ((k1, v1) :: d) =
      if k1 = k then (k, v) :: d else (k1, v1) :: dinsert k v d := rfl

theorem dictGet_nil {β : Type} (k : List Char) :
    dictGet k ([] : List (List Char × β)) = none := rfl

theorem dictGet_cons {β : Type} (k k1 : List Char) (v1 : β)
    (d : List (List Char × β)) :
    dictGet k ((k1, v1) :: d) =
      if k1 = k then some v1 else dictGet k d := rfl

theorem pySplit_cons (sep c : Char) (cs : List Char) :
    pySplit sep (c :: cs) =
      if c = sep then [] :: pySplit sep cs
      else
        match pySplit sep cs with
        | [] => [[c]]
        | p :: ps => (c :: p) :: ps := rfl

theorem lineRecord_eq_none_of_skip (l : List Char)
    (h : pyStrip l = [] ∨ (pyStrip l).head? = some '#') :
    lineRecord l = none := by
  rcases h with h | h
  · simp [lineRecord, h]
  · have hne : pyStrip l ≠ [] := by
      intro he
      rw [he] at h
      simp at h
    simp [lineRecord, hne, h]

theorem processLine_none (st : List (List Char × List Char) × List (List Char × Nat))
    (l : List Char) (hr : lineRecord l = none) :
    processLine st l = st := by
  unfold processLine
  rw [hr]

theorem processLine_some_known
    (st : List (List Char × List Char) × List (List Char × Nat))
    (l a c : List Char) (i : Nat)
    (hr : lineRecord l = some (a, c)) (hk : known_lookup c = some i) :
    processLine st l = (dinsert a c st.1, dinsert c i st.2) := by
  simp [processLine, hr, hk]

theorem processLine_some_unknown
    (st : List (List Char × List Char) × List (List Char × Nat))
    (l a c : List Char)
    (hr : lineRecord l = some (a, c)) (hk : known_lookup c = none) :
    processLine st l = (dinsert a c st.1, st.2) := by
  simp [processLine, hr, hk]

theorem foldl_processLine_filter (ls : List (List Char)) :
    ∀ st, ls.foldl processLine st =
      (ls.filter fun l => !skippable l).foldl processLine st := by
  induction ls with
  | nil => intro st; rfl
  | cons l ls ih =>
    intro st
    by_cases h : pyStrip l = [] ∨ (pyStrip l).head? = some '#'
    · rw [List.foldl_cons, processLine_none st l (lineRecord_eq_none_of_skip l h)]
      rw [ih st]
      have hsk : skippable l = true := decide_eq_true h
      have hf : (l :: ls).filter (fun l => !skippable l) =
          ls.filter (fun l => !skippable l) := by
        simp [List.filter_cons, hsk]
      rw [hf]
    · have hsk : skippable l = false := decide_eq_false h
      have hf : (l :: ls).filter (fun l => !skippable l) =
          l :: ls.filter (fun l => !skippable l) := by
        simp [List.filter_cons, hsk]
      rw [List.foldl_cons, ih (processLine st l), hf, List.foldl_cons]

theorem dictGet_dinsert {β : Type} (k a : List Char) (v : β)
    (d : List (List Char × β)) :
    dictGet k (dinsert a v d) = if a = k then some v else dictGet k d := by
  induction d with
  | nil => simp [dinsert, dictGet]
  | cons p d ih =>
    rcases p with ⟨k1, v1⟩
    by_cases h1 : k1 = a
    · subst h1
      by_cases h2 : k1 = k <;> simp [dinsert, dictGet, h2]
    · by_cases h2 : k1 = k
      · subst h2
        have h3 : ¬ a = k1 := fun he => h1 he.symm
        simp [dinsert, dictGet, h1, h3]
      · simp [dinsert, dictGet, h1, h2, ih]

theorem dictGet_foldl_processLine (ls : List (List Char)) :
    ∀ (st : List (List Char × List Char) × List (List Char × Nat))
      (u : List Char),
      dictGet u ((ls.foldl processLine st).1) =
        ((ls.filterMap lineRecord).reverse.find?
            (fun r => decide (r.1 = u))).elim
          (dictGet u st.1) (fun r => some r.2) := by
  induction ls with
  | nil => intro st u; rfl
  | cons l ls ih =>
    intro st u
    rw [List.foldl_cons, ih (processLine st l) u]
    cases hr : lineRecord l with
    | none =>
      rw [processLine_none st l hr]
      simp [List.filterMap_cons, hr]
    | some r =>
      rcases r with ⟨a, c⟩
      have hfst : (processLine st l).1 = dinsert a c st.1 := by
        cases hk : known_lookup c with
        | none => rw [processLine_some_unknown st l a c hr hk]
        | some i => rw [processLine_some_known st l a c i hr hk]
      rw [hfst]
      simp only [List.filterMap_cons, hr, List.reverse_cons, List.find?_append]
      cases hf : (ls.filterMap lineRecord).reverse.find?
          (fun r => decide (r.1 = u)) with
      | some r0 => simp [hf]
      | none =>
        by_cases hau : a = u
        · subst hau
          simp [hf, dictGet_dinsert, List.find?]
        · simp [hf, dictGet_dinsert, hau, List.find?]

theorem mem_keys_dinsert {β : Type} {k a : List Char} {v : β}
    {d : List (List Char × β)}
    (h : k ∈ (dinsert a v d).map Prod.fst) : k = a ∨ k ∈ d.map Prod.fst := by
  induction d with
  | nil => simpa [dinsert_nil] using h
  | cons p d ih =>
    rcases p with ⟨k1, v1⟩
    by_cases h1 : k1 = a
    · subst h1
      rw [dinsert_cons, if_pos rfl] at h
      simp only [List.map_cons, List.mem_cons] at h
      rcases h with h | h
      · exact Or.inl h
      · exact Or.inr (List.mem_cons_of_mem _ h)
    · rw [dinsert_cons, if_neg h1] at h
      simp only [List.map_cons, List.mem_cons] at h
      rcases h with h | h
      · subst h
        exact Or.inr (List.mem_cons_self _ _)
      · rcases ih h with h2 | h2
        · exact Or.inl h2
        · exact Or.inr (List.mem_cons_of_mem _ h2)

theorem c2id_keys_foldl (ls : List (List Char)) :
    ∀ (st : List (List Char × List Char) × List (List Char × Nat))
      (k : List Char),
      k ∈ ((ls.foldl processLine st).2.map Prod.fst) →
      k ∈ st.2.map Prod.fst ∨
        ((∃ i, known_lookup k = some i) ∧
          k ∈ (ls.filterMap lineRecord).map Prod.snd) := by
  induction ls with
  | nil => intro st k h; exact Or.inl h
  | cons l ls ih =>
    intro st k h
    rw [List.foldl_cons] at h
    rcases ih (processLine st l) k h with h1 | h2
    · cases hr : lineRecord l with
      | none =>
        rw [processLine_none st l hr] at h1
        exact Or.inl h1
      | some r =>
        rcases r with ⟨a, c⟩
        cases hk : known_lookup c with
        | none =>
          rw [processLine_some_unknown st l a c hr hk] at h1
          exact Or.inl h1
        | some i =>
          rw [processLine_some_known st l a c i hr hk] at h1
          rcases mem_keys_dinsert h1 with h3 | h3
          · subst h3
            refine Or.inr ⟨⟨i, hk⟩, ?_⟩
            simp [List.filterMap_cons, hr]
          · exact Or.inl h3
    · refine Or.inr ⟨h2.1, ?_⟩
      rcases h2 with ⟨_, hmem⟩
      cases hr : lineRecord l <;> simp [List.filterMap_cons, hr, hmem]

theorem pySplit_ne_nil (sep : Char) (s : List Char) : pySplit sep s ≠ [] := by
  cases s with
  | nil => simp [pySplit]
  | cons c cs =>
    by_cases h : c = sep
    · simp [pySplit, h]
    · simp only [pySplit, if_neg h]
      cases hp : pySplit sep cs <;> simp [hp]

theorem pySplit_no_sep (sep : Char) (b : List Char) (h : sep ∉ b) :
    pySplit sep b = [b] := by
  induction b with
  | nil => rfl
  | cons c cs ih =>
    have hc : c ≠ sep := fun he => h (by simp [he])
    have hcs : sep ∉ cs := fun hm => h (List.mem_cons_of_mem _ hm)
    simp only [pySplit, if_neg hc, ih hcs]

theorem pySplit_sep_append (sep : Char) (a b : List Char) (h : sep ∉ a) :
    pySplit sep (a ++ sep :: b) = a :: pySplit sep b := by
  induction a with
  | nil => simp [pySplit]
  | cons c a ih =>
    have hc : c ≠ sep := fun he => h (by simp [he])
    have ha : sep ∉ a := fun hm => h (List.mem_cons_of_mem _ hm)
    rw [List.cons_append, pySplit_cons, if_neg hc, ih ha]

theorem pySplit_length (sep : Char) (s : List Char) :
    (pySplit sep s).length = s.count sep + 1 := by
  induction s with
  | nil => rfl
  | cons c cs ih =>
    by_cases h : c = sep
    · subst h
      simp [pySplit, ih, List.count_cons]
    · simp only [pySplit, if_neg h]
      cases hp : pySplit sep cs with
      | nil => exact absurd hp (pySplit_ne_nil sep cs)
      | cons p ps =>
        rw [hp] at ih
        simpa [List.count_cons, h] using ih

theorem dinsert_self {β : Type} (a : List Char) (va : β)
    (d : List (List Char × β)) (h : dictGet a d = some va) :
    dinsert a va d = d := by
  induction d with
  | nil => simp [dictGet] at h
  | cons p d ih =>
    rcases p with ⟨k1, v1⟩
    by_cases h1 : k1 = a
    · subst h1
      simp [dictGet] at h
      simp [dinsert, h]
    · simp [dictGet, h1] at h
      simp [dinsert, h1, ih h]

theorem store_write2 (nA nB : List Char) (hAB : ¬ nB = nA)
    (ca cb : List Char) (store : List (List Char × List Char)) :
    dinsert nB cb (dinsert nA ca (dinsert nB cb (dinsert nA ca store))) =
      dinsert nB cb (dinsert nA ca store) := by
  have h1 : dictGet nA (dinsert nB cb (dinsert nA ca store)) = some ca := by
    rw [dictGet_dinsert, if_neg hAB, dictGet_dinsert, if_pos rfl]
  rw [dinsert_self nA ca _ h1]
  have h2 : dictGet nB (dinsert nB cb (dinsert nA ca store)) = some cb := by
    rw [dictGet_dinsert, if_pos rfl]
  rw [dinsert_self nB cb _ h2]

/-! Claim theorems. -/

/-- C1 (counterexample): on the input with the single username u listed
first with Denmark and then with Greece, Denmark is a key of the returned
CountryIdMap but is not a value of the returned UsernameCountryMap, so the
keys of CountryIdMap are not contained in the values of UsernameCountryMap. -/
theorem c1_counterexample :
    "Denmark".data ∈
        (parse_country_data "u,Denmark\nu,Greece".data).2.map Prod.fst ∧
    "Denmark".data ∉
        (parse_country_data "u,Denmark\nu,Greece".data).1.map Prod.snd := by
  decide

/-- C1 (amended): every key of the CountryIdMap returned by
parse_country_data is a key of the known-country table and is the country
field of some valid record line of the input; it need not survive as a
value of the returned UsernameCountryMap, since a later line with the same
username may overwrite the country value. -/
theorem c1_countryid_keys_known_and_recorded (data k : List Char)
    (h : k ∈ (parse_country_data data).2.map Prod.fst) :
    (∃ i, known_lookup k = some i) ∧ k ∈ (records data).map Prod.snd := by
  rcases c2id_keys_foldl (pySplit '\n' (pyStrip data)) ([], []) k h with h1 | h2
  · simp at h1
  · exact h2

/-- Witness for the amended C1 at a concrete input. -/
theorem c1_countryid_keys_witness :
    (∃ i, known_lookup "Denmark".data = some i) ∧
      "Denmark".data ∈ (records "x,Denmark".data).map Prod.snd :=
  c1_countryid_keys_known_and_recorded "x,Denmark".data "Denmark".data
    (by decide)

/-- C2 (counterexample): the line a,b,c contains two commas; the code
splits on every comma, obtains three fields, and silently discards the
line, so no entry with username a and country b,c is produced. -/
theorem c2_counterexample :
    ¬ dictGet "a".data (parse_country_data "a,b,c".data).1 =
        some "b,c".data := by
  decide

/-- C2 (amended): for every non-empty, non-comment stripped line, the
parser splits the line on every comma and keeps it only when that split
yields exactly two fields, that is when the stripped line contains exactly
one comma; in that case the entry is the pair of trimmed fields around the
unique comma, and a line whose comma count differs from one is discarded. -/
theorem c2_split_on_every_comma (l : List Char)
    (h1 : pyStrip l ≠ []) (h2 : (pyStrip l).head? ≠ some '#') :
    (∀ a b, pyStrip l = a ++ ',' :: b → ',' ∉ a → ',' ∉ b →
        lineRecord l = some (pyStrip a, pyStrip b)) ∧
    ((pyStrip l).count ',' ≠ 1 → lineRecord l = none) := by
  constructor
  · intro a b hab ha hb
    unfold lineRecord
    rw [if_neg h1, if_neg h2, hab, pySplit_sep_append ',' a b ha,
      pySplit_no_sep ',' b hb]
  · intro hc
    have hlen : (pySplit ',' (pyStrip l)).length ≠ 2 := by
      rw [pySplit_length]
      omega
    unfold lineRecord
    rw [if_neg h1, if_neg h2]
    rcases hp : pySplit ',' (pyStrip l) with _ | ⟨x, _ | ⟨y, _ | ⟨z, t⟩⟩⟩
    · exact absurd hp (pySplit_ne_nil ',' (pyStrip l))
    · rfl
    · exact absurd (by simp [hp]) hlen
    · rfl

/-- Witness for the amended C2: a one-comma line is kept with both fields
trimmed, and a two-comma line is discarded. -/
theorem c2_split_witness :
    lineRecord " a , b ".data = some ("a".data, "b".data) ∧
    lineRecord "a,b,c".data = none := by
  constructor
  · exact (c2_split_on_every_comma " a , b ".data (by decide) (by decide)).1
      "a ".data " b".data (by decide) (by decide) (by decide)
  · exact (c2_split_on_every_comma "a,b,c".data (by decide) (by decide)).2
      (by decide)

/-- C3: when a username occurs on several valid record lines, the returned
UsernameCountryMap maps it to the country of the last such line in input
order: the lookup equals the last matching record. -/
theorem c3_last_occurrence_wins (data u : List Char)
    (r : List Char × List Char)
    (h : (records data).reverse.find? (fun p => decide (p.1 = u)) = some r) :
    dictGet u (parse_country_data data).1 = some r.2 := by
  unfold parse_country_data
  rw [dictGet_foldl_processLine]
  unfold records at h
  rw [h]
  rfl

/-- Witness for C3: the username u occurs twice and keeps the country of
the last line. -/
theorem c3_last_occurrence_witness :
    dictGet "u".data (parse_country_data "u,A\nu,B".data).1 =
      some "B".data :=
  c3_last_occurrence_wins "u,A\nu,B".data "u".data ("u".data, "B".data)
    (by decide)

/-- C4: a line that strips to the empty string, or whose first character
after stripping is the comment mark, contributes no entry to either
dictionary: parsing the text equals folding only over the remaining
lines. -/
theorem c4_blank_comment_lines_ignored (data : List Char) :
    parse_country_data data =
      ((pySplit '\n' (pyStrip data)).filter fun l => !skippable l).foldl
        processLine ([], []) :=
  foldl_processLine_filter (pySplit '\n' (pyStrip data)) ([], [])

/-- C5: when the parsed UsernameCountryMap is empty the run writes no
file, prints the message instructing the operator to supply data, and
exits with status 0; when it is non-empty both CSV files are written. -/
theorem c5_empty_map_skips_files (data : List Char) :
    ((parse_country_data data).1 = [] →
      (mainRun data).files = [] ∧ no_data_message ∈ (mainRun data).msgs) ∧
    ((parse_country_data data).1 ≠ [] →
      (mainRun data).files.map Prod.fst =
        ["username_countries.csv".data, "country_ids.csv".data]) ∧
    (mainRun data).exitCode = 0 := by
  by_cases h : (parse_country_data data).1 = [] <;>
    simp [mainRun, h]

/-- Witness for C5: the empty input exercises the empty branch and a
one-record input exercises the writing branch. -/
theorem c5_empty_map_witness :
    (mainRun []).files = [] ∧ no_data_message ∈ (mainRun []).msgs ∧
      (mainRun []).exitCode = 0 ∧
      (mainRun "x,y".data).files.map Prod.fst =
        ["username_countries.csv".data, "country_ids.csv".data] :=
  ⟨((c5_empty_map_skips_files []).1 (by decide)).1,
   ((c5_empty_map_skips_files []).1 (by decide)).2,
   (c5_empty_map_skips_files []).2.2,
   (c5_empty_map_skips_files "x,y".data).2.1 (by decide)⟩

/-- C6: the username rows written to username_countries.csv are in
ascending order of the username field, and the country rows written to
country_ids.csv are in ascending order of the numeric identifier. -/
theorem c6_rows_sorted (u2c : List (List Char × List Char))
    (c2id : List (List Char × Nat)) :
    (userRows u2c).Pairwise (fun p q => p.1 ≤ q.1) ∧
    (countryRows c2id).Pairwise (fun p q => p.2 ≤ q.2) := by
  constructor
  · refine List.Pairwise.imp ?_ (List.sorted_insertionSort pairLe u2c)
    intro p q hpq
    rcases hpq with h | ⟨h, _⟩
    · exact le_of_lt h
    · exact le_of_eq h
  · exact List.Pairwise.imp (fun h => h)
      (List.sorted_insertionSort idLe c2id)

/-- C7: a second run on the same input leaves the file store unchanged:
both CSV files are rewritten with byte-identical contents. -/
theorem c7_second_run_identical (store : List (List Char × List Char))
    (data : List Char) :
    runStore (runStore store data) data = runStore store data := by
  unfold runStore
  by_cases h : (parse_country_data data).1 = []
  · simp [mainRun, h]
  · simp only [mainRun, if_neg h, List.foldl_cons, List.foldl_nil]
    exact store_write2 "username_countries.csv".data "country_ids.csv".data
      (by decide) _ _ store
